import Mathlib

/-!
# rtc::DataChannel: the `sendBuffer` path of `include/rtc/datachannel.hpp`

A shallow embedding of the header's inline code (`to_bytes` and the two
`DataChannel::sendBuffer` templates) together with the data members of
`class DataChannel` and their default member initialisers.

Memory is a flat, byte-addressed map. A buffer-like value is a view
`(data(), size())` over that memory whose element type is known statically;
a `Message` is a block of that same memory obtained from the allocator.
Stores performed by `std::copy` go to memory one byte at a time. A copy that
runs past the end of its destination has undefined behaviour in C++. The
flat memory shows where such stores land (`sendBuffer`, `sendBufferRange`);
whether a call is defined at all is a separate question, answered by
`sendBufferRun` and `sendBufferRangeRun`, which yield nothing as soon as a
copy would leave the Message it writes to.
-/

namespace rtc

/-! ## Machine-level types -/

/-- The type `std::byte`: one octet. -/
abbrev byte := Fin 256

/-- Largest value of `size_t` (64-bit target). -/
def SIZE_MAX : Nat := 2 ^ 64 - 1

/-- Arithmetic on `size_t` is unsigned and wraps modulo `SIZE_MAX + 1`. -/
def size_t (n : Nat) : Nat := n % (SIZE_MAX + 1)

/-- Byte-addressed memory; addresses are natural numbers. -/
abbrev Memory := Nat → byte

/-- The bytes stored at `[p, p + n)`. -/
def Memory.read (mem : Memory) (p n : Nat) : List byte :=
  (List.range n).map (fun i => mem (p + i))

/-- The store `*p = b`. -/
def Memory.store (mem : Memory) (p : Nat) (b : byte) : Memory :=
  fun x => if x = p then b else mem x

/-- An object type, known by its `sizeof`. -/
structure ObjectType where
  sizeof : Nat
deriving DecidableEq

/-- The object type `std::byte`, `sizeof(byte) == 1`. -/
def byteType : ObjectType := ⟨1⟩

/-- A buffer-like value: anything with `data()` and `size()`.
`pointee` is `std::remove_pointer<decltype(buf.data())>::type`, with `none`
standing for `void`; `data` is the address `data()` returns and `size` the
element count `size()` returns. The viewed region, `size` elements of the
pointee type (of one byte each behind a `void` pointer), lies inside the address space. -/
structure Buffer where
  pointee : Option ObjectType
  data : Nat
  size : Nat
  inAddressSpace : data + size * (pointee.getD byteType).sizeof ≤ SIZE_MAX

/-- Number of bytes of the region a buffer views. -/
def Buffer.byteLength (buf : Buffer) : Nat :=
  buf.size * (buf.pointee.getD byteType).sizeof

/-- The bytes of the region a buffer views, as they stand in `mem`. -/
def Buffer.bytes (mem : Memory) (buf : Buffer) : List byte :=
  mem.read buf.data buf.byteLength

/-! ## Collaborator types (declared outside this header) -/

/-- Modelled from the spec: the Reliability Descriptor (`reliability.hpp` is
not part of the sources). For one channel, at most one of the two numeric
limits is present. -/
inductive ReliabilityLimit where
  | none
  | maxRetransmits (count : Nat)
  | maxPacketLifetime (ms : Nat)
deriving DecidableEq

/-- Modelled from the spec: the Reliability Descriptor (`reliability.hpp` is
not part of the sources): the `unordered` flag and the delivery limit. -/
structure Reliability where
  unordered : Bool
  limit : ReliabilityLimit
deriving DecidableEq

/-- Modelled from the spec: the Message type (`message.hpp` is not part of
the sources). A Message "owns a contiguous byte buffer of known size": here
the address of that buffer (`message->data()`, also `message->begin()`) and
its size (`message->size()`). The payload tag is left out: `sendBuffer`
never sets it. -/
structure Message where
  data : Nat
  size : Nat
deriving DecidableEq

/-- The bytes a Message owns, as they stand in `mem`. -/
def Message.contents (mem : Memory) (m : Message) : List byte :=
  mem.read m.data m.size

/-- Modelled from the spec: what the Multiplexing Transport accepts, "an
outgoing buffer tagged with a stream id and reliability parameters". -/
structure Frame where
  stream : Nat
  reliability : Reliability
  payload : List byte
deriving DecidableEq

/-- Modelled from the spec: the Multiplexing Transport (`SctpTransport` is
only forward-declared in the header): the negotiated upper bound for a single
message and the frames it has accepted so far, oldest first. -/
structure SctpTransport where
  maxMessageSize : Nat
  accepted : List Frame
deriving DecidableEq

/-- Modelled from the spec: the Owning Connection (`PeerConnection` is only
forward-declared in the header); the channel merely refers to it. -/
structure PeerConnection where
  id : Nat
deriving DecidableEq

/-- Modelled from the spec: the Incoming Queue (`queue.hpp` is not part of
the sources), "an ordered sequence of owned Messages; FIFO", oldest first. A
default-constructed queue holds no Message. -/
structure Queue where
  items : List Message := []
deriving DecidableEq

/-- Modelled from the spec: the decoded content of an open control message
(its wire contract): the reliability descriptor, the label and the protocol. -/
structure OpenFields where
  reliability : Reliability
  label : String
  protocol : String
deriving DecidableEq

/-! ## The DataChannel object -/

/-- The data members of `class DataChannel`, in declaration order. The three
atomics carry the default member initialisers written in the class body
(`mIsOpen = false`, `mIsClosed = false`, `mRecvAmount = 0`); `mRecvQueue` has
none and is default-constructed. `mSctpTransport` is a shared pointer: `none`
is the null pointer. -/
structure DataChannel where
  mPeerConnection : PeerConnection
  mSctpTransport : Option SctpTransport
  mStream : Nat
  mLabel : String
  mProtocol : String
  mReliability : Reliability
  mIsOpen : Bool := false
  mIsClosed : Bool := false
  mRecvQueue : Queue := {}
  mRecvAmount : Nat := 0
deriving DecidableEq

/-- Modelled from the spec: the constructor
`DataChannel(pc, stream, label, protocol, reliability)` (declared in the
header, defined outside the sources). "Locally-initiated: `(connection,
streamId, label, protocol, reliability)`: channel starts `Idle`, transport
bound later"; "constructed in 'not open' state". The arguments initialise
the members of the same name, no transport is bound, and the members the
constructor is not given keep the default member initialisers of the class
body. -/
def DataChannel.construct (pc : PeerConnection) (stream : Nat) (label protocol : String)
    (reliability : Reliability) : DataChannel :=
  { mPeerConnection := pc, mSctpTransport := none, mStream := stream,
    mLabel := label, mProtocol := protocol, mReliability := reliability }

/-- Modelled from the spec: the constructor `DataChannel(pc, transport, stream)`
(declared in the header, defined outside the sources). "Remote-bound:
`(connection, transport, streamId)`: channel is attached directly to an
already-ready transport and must determine its own state via the next
incoming open message on that stream"; "constructed in 'not open' state".
It is given no label, protocol or reliability: these start empty and
reliable-ordered ("reliable-ordered when neither is set"), and the other
members keep the default member initialisers of the class body. -/
def DataChannel.constructBound (pc : PeerConnection) (transport : SctpTransport)
    (stream : Nat) : DataChannel :=
  { mPeerConnection := pc, mSctpTransport := some transport, mStream := stream,
    mLabel := "", mProtocol := "", mReliability := ⟨false, .none⟩ }

/-- Modelled from the spec: `DataChannel::isOpen` (declared in the header,
defined outside the sources): the observable `isOpen` flag. -/
def DataChannel.isOpen (dc : DataChannel) : Bool := dc.mIsOpen

/-- Modelled from the spec: `DataChannel::isClosed` (declared in the header,
defined outside the sources): the observable `isClosed` flag. -/
def DataChannel.isClosed (dc : DataChannel) : Bool := dc.mIsClosed

/-- Modelled from the spec: `DataChannel::availableAmount` (declared in the
header, defined outside the sources): "returns `recvAmount`". -/
def DataChannel.availableAmount (dc : DataChannel) : Nat := dc.mRecvAmount

/-- Sum of the sizes of the Messages in the incoming queue. -/
def DataChannel.queuedBytes (dc : DataChannel) : Nat :=
  (dc.mRecvQueue.items.map Message.size).sum

/-- Modelled from the spec: `DataChannel::processOpenMessage` (declared in
the header, defined outside the sources): it "decodes reliability
parameters, label, protocol; transitions `Idle` to `Open`". The byte-level
decoder is a parameter; a message it refuses is dropped and the channel is
left as it was. -/
def DataChannel.processOpenMessage (decode : List byte → Option OpenFields)
    (dc : DataChannel) (mem : Memory) (message : Message) : DataChannel :=
  match decode (message.contents mem) with
  | none => dc
  | some decoded =>
    { dc with
      mReliability := decoded.reliability
      mLabel := decoded.label
      mProtocol := decoded.protocol
      mIsOpen := true }

/-! ## `to_bytes` -/

/-- The template `to_bytes`: the buffer's `data()` as a pointer to bytes, and
`buf.size() * sizeof(E)` computed in `size_t`, where `E` is the pointee type
`T` of `data()`, or `byte` when `T` is `void`. -/
def to_bytes (buf : Buffer) : Nat × Nat :=
  let T := buf.pointee
  let E : ObjectType := match T with
    | none => byteType
    | some t => t
  (buf.data, size_t (buf.size * E.sizeof))

/-! ## Allocation and `std::copy` -/

/-- Modelled from the spec: the constructor `Message(size)` reached through
`std::make_shared<Message>(size)` (`message.hpp` is not part of the
sources): "allocate exactly one Message of that size". The allocator places
the new buffer at `a` (allocation is taken to succeed) and its `size` bytes
start out as zero. -/
def make_shared_Message (mem : Memory) (a size : Nat) : Memory × Message :=
  (fun x => if a ≤ x ∧ x < a + size then 0 else mem x, ⟨a, size⟩)

/-- The loop of `std::copy` over byte pointers: `n` times `*d++ = *s++`;
returns the memory and the advanced destination. -/
def copy_loop : Nat → Nat → Nat → Memory → Memory × Nat
  | 0, _, d, mem => (mem, d)
  | n + 1, s, d, mem => copy_loop n (s + 1) (d + 1) (mem.store d (mem s))

/-- The call `std::copy(first, last, d_first)` on byte pointers: copies
`last - first` bytes and returns the end of the destination range. -/
def std_copy (mem : Memory) (first last d_first : Nat) : Memory × Nat :=
  copy_loop (last - first) first d_first mem

/-! ## `DataChannel::sendBuffer`

`outgoing` is declared in the header but defined elsewhere, so both
templates take it as a parameter: any function of the channel, the memory
and the Message it is handed. -/

/-- The template `DataChannel::sendBuffer(const Buffer &buf)`, run in flat
memory; whether the call is defined is `sendBufferRun`. -/
def DataChannel.sendBuffer {ρ : Type} (outgoing : DataChannel → Memory → Message → ρ)
    (dc : DataChannel) (mem : Memory) (a : Nat) (buf : Buffer) : ρ :=
  let bytes := (to_bytes buf).1
  let size := (to_bytes buf).2
  let alloc := make_shared_Message mem a size
  let message := alloc.2
  let copied := std_copy alloc.1 bytes (bytes + size) message.data
  outgoing dc copied.1 message

/-- First loop of the range overload: `size += it->size()` over the range,
in `size_t`. -/
def rangeSize (range : List Buffer) : Nat :=
  range.foldl (fun size it => size_t (size + it.size)) 0

/-- Second loop of the range overload: for each view in turn,
`pos = std::copy(bytes, bytes + size, pos)` with `(bytes, size) = to_bytes(*it)`. -/
def rangeCopy (range : List Buffer) (mem : Memory) (pos : Nat) : Memory × Nat :=
  range.foldl
    (fun (st : Memory × Nat) it =>
      let bytes := (to_bytes it).1
      let size := (to_bytes it).2
      std_copy st.1 bytes (bytes + size) st.2)
    (mem, pos)

/-- The template `DataChannel::sendBuffer(Iterator first, Iterator last)`;
the range `[first, last)` is the list of the views it runs over. This is the
run in flat memory, stores past the end of the Message included; whether the
call is defined is `sendBufferRangeRun`. -/
def DataChannel.sendBufferRange {ρ : Type} (outgoing : DataChannel → Memory → Message → ρ)
    (dc : DataChannel) (mem : Memory) (a : Nat) (range : List Buffer) : ρ :=
  let size := rangeSize range
  let alloc := make_shared_Message mem a size
  let message := alloc.2
  let pos := message.data
  let copied := rangeCopy range alloc.1 pos
  outgoing dc copied.1 message

/-- Total number of bytes of the regions the views of a range cover. -/
def rangeBytes (range : List Buffer) : Nat :=
  (range.map Buffer.byteLength).sum

/-- The requirement of `std::copy(first, last, d_first)` on a destination
inside a Message: the stores go to `[d_first, d_first + (last - first))`,
which has to lie inside the Message's buffer. Otherwise the call has
undefined behaviour. -/
def copyInside (message : Message) (first last d_first : Nat) : Bool :=
  decide (message.data ≤ d_first ∧ d_first + (last - first) ≤ message.data + message.size)

/-- Whether every `std::copy` of the range overload's second loop meets
`copyInside`, `pos` advancing by the bytes copied as in `rangeCopy`. -/
def rangeCopyDefined (message : Message) : List Buffer → Nat → Bool
  | [], _ => true
  | it :: rest, pos =>
    let bytes := (to_bytes it).1
    let size := (to_bytes it).2
    copyInside message bytes (bytes + size) pos && rangeCopyDefined message rest (pos + size)

/-- A call of `sendBuffer(buf)` with undefined behaviour made explicit:
`none` when its copy would store outside the Message, so that nothing can be
said of what follows; otherwise what the run in flat memory returns. -/
def DataChannel.sendBufferRun {ρ : Type} (outgoing : DataChannel → Memory → Message → ρ)
    (dc : DataChannel) (mem : Memory) (a : Nat) (buf : Buffer) : Option ρ :=
  let bytes := (to_bytes buf).1
  let size := (to_bytes buf).2
  let message := (make_shared_Message mem a size).2
  if copyInside message bytes (bytes + size) message.data then
    some (dc.sendBuffer outgoing mem a buf)
  else none

/-- A call of `sendBuffer(first, last)` with undefined behaviour made
explicit: `none` when a copy of the second loop would store outside the
Message, so that nothing can be said of what follows, the call of `outgoing`
included; otherwise what the run in flat memory returns. -/
def DataChannel.sendBufferRangeRun {ρ : Type}
    (outgoing : DataChannel → Memory → Message → ρ)
    (dc : DataChannel) (mem : Memory) (a : Nat) (range : List Buffer) : Option ρ :=
  let message := (make_shared_Message mem a (rangeSize range)).2
  if rangeCopyDefined message range message.data then
    some (dc.sendBufferRange outgoing mem a range)
  else none

/-- What a call hands to `outgoing`: the channel, the memory at that moment
and the Message. Passing this as `outgoing` makes the arguments of the call
the result. -/
def handed (dc : DataChannel) (mem : Memory) (message : Message) :
    DataChannel × Memory × Message :=
  (dc, mem, message)

/-! ## `outgoing` and `maxMessageSize` -/

/-- Failures of the send path (spec, error taxonomy). -/
inductive SendError where
  | invalidState
  | transportUnavailable
  | sizeExceeded
deriving DecidableEq

/-- Modelled from the spec: `DataChannel::outgoing` (declared in the header,
defined outside the sources). It is "the single internal funnel": it fails
if the channel is closed or no transport is bound, rejects a payload larger
than the transport's negotiated bound (the rejection the spec demands of
`send`/`sendBuffer`, which contain no other code than the call of
`outgoing`), and otherwise attaches the channel's stream id and reliability
descriptor and forwards the Message to the transport. -/
def DataChannel.outgoing (dc : DataChannel) (mem : Memory) (message : Message) :
    Except SendError DataChannel :=
  if dc.mIsClosed then .error .invalidState
  else match dc.mSctpTransport with
    | none => .error .transportUnavailable
    | some transport =>
      if message.size > transport.maxMessageSize then .error .sizeExceeded
      else .ok { dc with mSctpTransport := some { transport with
        accepted := transport.accepted ++
          [⟨dc.mStream, dc.mReliability, message.contents mem⟩] } }

/-- Modelled from the spec: `DataChannel::maxMessageSize` (declared in the
header, defined outside the sources): "the negotiated upper bound for a
single message", "queried through the transport collaborator"; there is
nothing to query while no transport is bound. -/
def DataChannel.maxMessageSize (dc : DataChannel) : Option Nat :=
  dc.mSctpTransport.map SctpTransport.maxMessageSize

/-! ## Concrete inputs -/

/-- The object type `uint16_t`. -/
def uint16_t : ObjectType := ⟨2⟩

/-- The object type `uint32_t`. -/
def uint32_t : ObjectType := ⟨4⟩

/-- A memory holding the octets `AA BB CC DD` at addresses 16 to 19 and
zero everywhere else. -/
def sampleMemory : Memory :=
  fun x => if x = 16 then 0xAA else if x = 17 then 0xBB
    else if x = 18 then 0xCC else if x = 19 then 0xDD else 0

/-- A `std::vector<byte>` of four elements stored at address 16. -/
def fourBytes : Buffer := ⟨some byteType, 16, 4, by decide⟩

/-- Four bytes at address 16 seen through a `void` pointer. -/
def fourVoid : Buffer := ⟨none, 16, 4, by decide⟩

/-- A `std::vector<uint16_t>` of one element stored at address 16. -/
def oneUint16 : Buffer := ⟨some uint16_t, 16, 1, by decide⟩

/-- A `std::vector<uint16_t>` of two elements stored at address 16. -/
def twoUint16 : Buffer := ⟨some uint16_t, 16, 2, by decide⟩

/-- A `std::vector<uint16_t>` of one element stored at address 18. -/
def nextUint16 : Buffer := ⟨some uint16_t, 18, 1, by decide⟩

/-- A `std::vector<uint32_t>` of one element stored at address 16. -/
def oneUint32 : Buffer := ⟨some uint32_t, 16, 1, by decide⟩

/-- A `std::vector<byte>` of two elements stored at address 16. -/
def headBytes : Buffer := ⟨some byteType, 16, 2, by decide⟩

/-- A `std::vector<byte>` of two elements stored at address 18. -/
def tailBytes : Buffer := ⟨some byteType, 18, 2, by decide⟩

/-- A transport whose negotiated bound for one message is 3 bytes and which
has accepted nothing yet. -/
def smallTransport : SctpTransport := ⟨3, []⟩

/-- An open channel on stream 1, labelled "chat", reliable and ordered,
bound to `smallTransport`: a locally-initiated channel once `open` has bound
the transport. -/
def openChannel : DataChannel :=
  { DataChannel.construct ⟨0⟩ 1 "chat" "" ⟨false, .none⟩ with
    mSctpTransport := some smallTransport, mIsOpen := true }

/-! ## Lemmas on the memory operations -/

theorem size_t_of_le {n : Nat} (h : n ≤ SIZE_MAX) : size_t n = n := by
  unfold size_t
  exact Nat.mod_eq_of_lt (Nat.lt_succ_of_le h)

theorem size_t_lt (n : Nat) : size_t n < SIZE_MAX + 1 := by
  unfold size_t
  exact Nat.mod_lt _ (Nat.succ_pos _)

theorem Buffer.byteLength_le (buf : Buffer) : buf.byteLength ≤ SIZE_MAX := by
  have h := buf.inAddressSpace
  unfold Buffer.byteLength
  omega

theorem to_bytes_fst (buf : Buffer) : (to_bytes buf).1 = buf.data := rfl

theorem to_bytes_snd (buf : Buffer) : (to_bytes buf).2 = buf.byteLength := by
  have h := buf.byteLength_le
  unfold Buffer.byteLength at h ⊢
  unfold to_bytes
  cases hp : buf.pointee with
  | none => simp only [hp, Option.getD] at h ⊢; exact size_t_of_le h
  | some t => simp only [hp, Option.getD] at h ⊢; exact size_t_of_le h

theorem copy_loop_snd (n s d : Nat) (mem : Memory) : (copy_loop n s d mem).2 = d + n := by
  induction n generalizing s d mem with
  | zero => rfl
  | succ n ih => rw [copy_loop, ih]; omega

theorem copy_loop_outside (n s d : Nat) (mem : Memory) (x : Nat)
    (hx : x < d ∨ d + n ≤ x) : (copy_loop n s d mem).1 x = mem x := by
  induction n generalizing s d mem with
  | zero => rfl
  | succ n ih =>
    rw [copy_loop, ih (s + 1) (d + 1) _ (by omega)]
    have hne : x ≠ d := by omega
    simp [Memory.store, hne]

theorem copy_loop_inside (n s d : Nat) (mem : Memory) (i : Nat)
    (hsep : s + n ≤ d ∨ d + n ≤ s) (hi : i < n) :
    (copy_loop n s d mem).1 (d + i) = mem (s + i) := by
  induction n generalizing s d mem i with
  | zero => omega
  | succ n ih =>
    rw [copy_loop]
    cases i with
    | zero =>
      rw [copy_loop_outside n (s + 1) (d + 1) _ (d + 0) (by omega)]
      simp [Memory.store]
    | succ k =>
      have h := ih (s + 1) (d + 1) (mem.store d (mem s)) k (by omega) (by omega)
      have e1 : d + (k + 1) = d + 1 + k := by omega
      have e2 : s + (k + 1) = s + 1 + k := by omega
      rw [e1, e2, h]
      have hne : s + 1 + k ≠ d := by omega
      simp [Memory.store, hne]

theorem copy_loop_zero (s d : Nat) (mem : Memory) : copy_loop 0 s d mem = (mem, d) := rfl

theorem std_copy_empty (mem : Memory) (p d : Nat) : std_copy mem p (p + 0) d = (mem, d) := by
  simp [std_copy, copy_loop]

theorem Memory.read_congr (m1 m2 : Memory) (p q n : Nat)
    (h : ∀ i, i < n → m1 (p + i) = m2 (q + i)) : m1.read p n = m2.read q n := by
  unfold Memory.read
  apply List.map_congr_left
  intro i hi
  exact h i (List.mem_range.mp hi)

theorem make_shared_Message_outside (mem : Memory) (a size x : Nat)
    (hx : x < a ∨ a + size ≤ x) : (make_shared_Message mem a size).1 x = mem x := by
  have hn : ¬ (a ≤ x ∧ x < a + size) := by omega
  simp [make_shared_Message, hn]

theorem make_shared_Message_snd (mem : Memory) (a size : Nat) :
    (make_shared_Message mem a size).2 = ⟨a, size⟩ := rfl

/-- Memory after the single-buffer overload has built its Message. -/
theorem sendBuffer_eq {ρ : Type} (outgoing : DataChannel → Memory → Message → ρ)
    (dc : DataChannel) (mem : Memory) (a : Nat) (buf : Buffer) :
    dc.sendBuffer outgoing mem a buf =
      outgoing dc
        (copy_loop buf.byteLength buf.data a (make_shared_Message mem a buf.byteLength).1).1
        ⟨a, buf.byteLength⟩ := by
  unfold DataChannel.sendBuffer std_copy
  simp only [to_bytes_fst, to_bytes_snd, make_shared_Message_snd, Nat.add_sub_cancel_left]

theorem make_shared_Message_zero (mem : Memory) (a : Nat) :
    make_shared_Message mem a 0 = (mem, ⟨a, 0⟩) := by
  unfold make_shared_Message
  apply Prod.ext
  · funext x
    have hn : ¬ (a ≤ x ∧ x < a + 0) := by omega
    simp [hn]
  · rfl

theorem to_bytes_of_size_zero (buf : Buffer) (h : buf.size = 0) :
    to_bytes buf = (buf.data, 0) := by
  apply Prod.ext
  · rfl
  · rw [to_bytes_snd]
    simp [Buffer.byteLength, h]

/-- Views of size 0 add nothing in the first loop. -/
theorem foldl_size_filter (range : List Buffer) (acc : Nat) (h : acc ≤ SIZE_MAX) :
    (range.filter (fun v => v.size != 0)).foldl (fun size it => size_t (size + it.size)) acc =
      range.foldl (fun size it => size_t (size + it.size)) acc := by
  induction range generalizing acc with
  | nil => rfl
  | cons v vs ih =>
    by_cases hv : v.size = 0
    · have hacc : size_t (acc + v.size) = acc := by
        rw [hv, Nat.add_zero]
        exact size_t_of_le h
      simp only [List.filter_cons, hv, bne_self_eq_false, Bool.false_eq_true, if_false,
        List.foldl_cons, Nat.add_zero]
      rw [size_t_of_le h]
      exact ih acc h
    · have hb : (v.size != 0) = true := by simpa using hv
      simp only [List.filter_cons, hb, if_true, List.foldl_cons]
      exact ih _ (Nat.le_of_lt_succ (size_t_lt _))

/-- Views of size 0 store nothing in the second loop. -/
theorem rangeCopy_filter (range : List Buffer) (mem : Memory) (pos : Nat) :
    rangeCopy (range.filter (fun v => v.size != 0)) mem pos = rangeCopy range mem pos := by
  unfold rangeCopy
  generalize (mem, pos) = st
  induction range generalizing st with
  | nil => rfl
  | cons v vs ih =>
    by_cases hv : v.size = 0
    · simp only [List.filter_cons, hv, bne_self_eq_false, Bool.false_eq_true, if_false,
        List.foldl_cons]
      rw [to_bytes_of_size_zero v hv, std_copy_empty]
      exact ih st
    · have hb : (v.size != 0) = true := by simpa using hv
      simp only [List.filter_cons, hb, if_true, List.foldl_cons]
      exact ih _

/-! ## The range overload on views whose byte length is their element count -/

theorem Memory.read_add (mem : Memory) (p n k : Nat) :
    mem.read p (n + k) = mem.read p n ++ mem.read (p + n) k := by
  unfold Memory.read
  rw [List.range_add, List.map_append, List.map_map]
  congr 1
  apply List.map_congr_left
  intro i _
  simp [Nat.add_assoc]

theorem rangeCopy_nil (mem : Memory) (pos : Nat) : rangeCopy [] mem pos = (mem, pos) := rfl

theorem rangeCopy_cons (v : Buffer) (vs : List Buffer) (mem : Memory) (pos : Nat) :
    rangeCopy (v :: vs) mem pos =
      rangeCopy vs (copy_loop v.byteLength v.data pos mem).1 (pos + v.byteLength) := by
  unfold rangeCopy
  simp only [List.foldl_cons, std_copy, to_bytes_fst, to_bytes_snd, Nat.add_sub_cancel_left]
  congr 1
  apply Prod.ext
  · rfl
  · exact copy_loop_snd _ _ _ _

theorem rangeBytes_cons (v : Buffer) (vs : List Buffer) :
    rangeBytes (v :: vs) = v.byteLength + rangeBytes vs := by
  simp [rangeBytes]

/-- The second loop stores only into `[pos, pos + rangeBytes range)`. -/
theorem rangeCopy_outside (range : List Buffer) (mem : Memory) (pos x : Nat)
    (hx : x < pos ∨ pos + rangeBytes range ≤ x) : (rangeCopy range mem pos).1 x = mem x := by
  induction range generalizing mem pos with
  | nil => rfl
  | cons v vs ih =>
    rw [rangeBytes_cons] at hx
    rw [rangeCopy_cons, ih _ _ (by omega)]
    exact copy_loop_outside _ _ _ _ _ (by omega)

/-- When no view overlaps the destination, the second loop leaves there the
views' bytes one after the other. -/
theorem rangeCopy_read (range : List Buffer) (mem : Memory) (pos : Nat)
    (hsep : ∀ v ∈ range, v.data + v.byteLength ≤ pos ∨ pos + rangeBytes range ≤ v.data) :
    (rangeCopy range mem pos).1.read pos (rangeBytes range) =
      (range.map (Buffer.bytes mem)).flatten := by
  induction range generalizing mem pos with
  | nil => rfl
  | cons v vs ih =>
    have hv := hsep v (List.mem_cons_self _ _)
    rw [rangeBytes_cons] at hv
    rw [rangeCopy_cons, rangeBytes_cons, Memory.read_add, List.map_cons, List.flatten_cons]
    congr 1
    · unfold Buffer.bytes
      apply Memory.read_congr
      intro i hi
      rw [rangeCopy_outside _ _ _ _ (by omega)]
      exact copy_loop_inside _ _ _ _ _ (by omega) hi
    · have hvs : ∀ w ∈ vs, w.data + w.byteLength ≤ pos + v.byteLength ∨
          pos + v.byteLength + rangeBytes vs ≤ w.data := by
        intro w hw
        have h := hsep w (List.mem_cons_of_mem _ hw)
        rw [rangeBytes_cons] at h
        omega
      rw [ih _ _ hvs]
      congr 1
      apply List.map_congr_left
      intro w hw
      have h := hsep w (List.mem_cons_of_mem _ hw)
      rw [rangeBytes_cons] at h
      unfold Buffer.bytes
      apply Memory.read_congr
      intro i hi
      exact copy_loop_outside _ _ _ _ _ (by omega)

/-- The first loop yields the total byte count when every view's byte length
is its element count and the total fits `size_t`. -/
theorem foldl_size_of_byte_views (range : List Buffer) (acc : Nat)
    (hbyte : ∀ v ∈ range, v.byteLength = v.size)
    (hfit : acc + rangeBytes range ≤ SIZE_MAX) :
    range.foldl (fun size it => size_t (size + it.size)) acc = acc + rangeBytes range := by
  induction range generalizing acc with
  | nil => simp [rangeBytes]
  | cons v vs ih =>
    have hv := hbyte v (List.mem_cons_self _ _)
    rw [rangeBytes_cons] at hfit ⊢
    rw [List.foldl_cons, size_t_of_le (by omega),
      ih _ (fun w hw => hbyte w (List.mem_cons_of_mem _ hw)) (by omega)]
    omega

theorem rangeSize_of_byte_views (range : List Buffer)
    (hbyte : ∀ v ∈ range, v.byteLength = v.size) (hfit : rangeBytes range ≤ SIZE_MAX) :
    rangeSize range = rangeBytes range := by
  unfold rangeSize
  rw [foldl_size_of_byte_views range 0 hbyte (by omega)]
  omega

theorem sendBufferRange_eq {ρ : Type} (outgoing : DataChannel → Memory → Message → ρ)
    (dc : DataChannel) (mem : Memory) (a : Nat) (range : List Buffer) :
    dc.sendBufferRange outgoing mem a range =
      outgoing dc (rangeCopy range (make_shared_Message mem a (rangeSize range)).1 a).1
        ⟨a, rangeSize range⟩ := rfl

/-- On a range of views whose byte length is their element count (one-byte
elements, `void` pointers, empty views), with a total that fits `size_t` and
a Message placed clear of every view, the range overload hands `outgoing`
one Message of the total size holding the views' bytes in order, and writes
nothing outside it. -/
theorem sendBufferRange_of_byte_views (dc : DataChannel) (mem : Memory) (a : Nat)
    (range : List Buffer)
    (hbyte : ∀ v ∈ range, v.byteLength = v.size)
    (hfit : rangeBytes range ≤ SIZE_MAX)
    (hfresh : ∀ v ∈ range, v.data + v.byteLength ≤ a ∨ a + rangeBytes range ≤ v.data) :
    ∃ (mem' : Memory),
      (∀ (ρ : Type) (outgoing : DataChannel → Memory → Message → ρ),
        dc.sendBufferRange outgoing mem a range = outgoing dc mem' ⟨a, rangeBytes range⟩) ∧
      Message.contents mem' ⟨a, rangeBytes range⟩ = (range.map (Buffer.bytes mem)).flatten ∧
      (∀ x, x < a ∨ a + rangeBytes range ≤ x → mem' x = mem x) := by
  have hsize := rangeSize_of_byte_views range hbyte hfit
  refine ⟨(rangeCopy range (make_shared_Message mem a (rangeBytes range)).1 a).1, ?_, ?_, ?_⟩
  · intro ρ outgoing
    rw [sendBufferRange_eq, hsize]
  · unfold Message.contents
    rw [rangeCopy_read _ _ _ hfresh]
    congr 1
    apply List.map_congr_left
    intro w hw
    have h := hfresh w hw
    unfold Buffer.bytes
    apply Memory.read_congr
    intro i hi
    exact make_shared_Message_outside _ _ _ _ (by omega)
  · intro x hx
    rw [rangeCopy_outside _ _ _ _ hx]
    exact make_shared_Message_outside _ _ _ _ hx

/-- The lemma above on two one-byte views, `AA BB` at 16 and `CC DD` at 18,
with the Message placed at 32. -/
theorem sendBufferRange_of_byte_views_witness :
    ∃ (mem' : Memory),
      (∀ (ρ : Type) (outgoing : DataChannel → Memory → Message → ρ),
        openChannel.sendBufferRange outgoing sampleMemory 32 [headBytes, tailBytes] =
          outgoing openChannel mem' ⟨32, rangeBytes [headBytes, tailBytes]⟩) ∧
      Message.contents mem' ⟨32, rangeBytes [headBytes, tailBytes]⟩ =
        ([headBytes, tailBytes].map (Buffer.bytes sampleMemory)).flatten ∧
      (∀ x, x < 32 ∨ 32 + rangeBytes [headBytes, tailBytes] ≤ x → mem' x = sampleMemory x) :=
  sendBufferRange_of_byte_views openChannel sampleMemory 32 [headBytes, tailBytes]
    (by decide) (by decide) (by decide)

/-- On one view whose byte length is its element count, the range overload
applied to the one-element range does what the single-buffer overload does. -/
theorem sendBufferRange_singleton_of_byte_view {ρ : Type}
    (outgoing : DataChannel → Memory → Message → ρ) (dc : DataChannel) (mem : Memory)
    (a : Nat) (v : Buffer) (hbyte : v.byteLength = v.size) :
    dc.sendBufferRange outgoing mem a [v] = dc.sendBuffer outgoing mem a v := by
  have hsize : rangeSize [v] = v.byteLength := by
    rw [rangeSize_of_byte_views [v] (by simpa using hbyte)
      (by simpa [rangeBytes] using v.byteLength_le)]
    simp [rangeBytes]
  rw [sendBufferRange_eq, sendBuffer_eq, hsize, rangeCopy_cons, rangeCopy_nil]

/-- Under the spec's `outgoing`, the single-buffer overload never forwards a
buffer longer than the transport's bound: the call fails. -/
theorem sendBuffer_oversize_rejected (dc : DataChannel) (mem : Memory) (a : Nat) (buf : Buffer)
    (hbig : ∀ t, dc.mSctpTransport = some t → t.maxMessageSize < buf.byteLength) :
    ∃ e, dc.sendBuffer DataChannel.outgoing mem a buf = .error e := by
  rw [sendBuffer_eq]
  unfold DataChannel.outgoing
  by_cases hc : dc.mIsClosed = true
  · exact ⟨.invalidState, by simp [hc]⟩
  · cases ht : dc.mSctpTransport with
    | none => exact ⟨.transportUnavailable, by simp [hc]⟩
    | some t =>
      have h := hbig t ht
      exact ⟨.sizeExceeded, by simp [hc, h]⟩

/-- Under the spec's `outgoing`, the range overload does not forward a range
of byte views whose total exceeds the transport's bound either. -/
theorem sendBufferRange_oversize_rejected_of_byte_views (dc : DataChannel) (mem : Memory)
    (a : Nat) (range : List Buffer)
    (hbyte : ∀ v ∈ range, v.byteLength = v.size) (hfit : rangeBytes range ≤ SIZE_MAX)
    (hbig : ∀ t, dc.mSctpTransport = some t → t.maxMessageSize < rangeBytes range) :
    ∃ e, dc.sendBufferRange DataChannel.outgoing mem a range = .error e := by
  rw [sendBufferRange_eq, rangeSize_of_byte_views range hbyte hfit]
  unfold DataChannel.outgoing
  by_cases hc : dc.mIsClosed = true
  · exact ⟨.invalidState, by simp [hc]⟩
  · cases ht : dc.mSctpTransport with
    | none => exact ⟨.transportUnavailable, by simp [hc]⟩
    | some t =>
      have h := hbig t ht
      exact ⟨.sizeExceeded, by simp [hc, h]⟩

/-! ## When the calls are defined -/

theorem copyInside_iff (message : Message) (first last d_first : Nat) :
    copyInside message first last d_first = true ↔
      message.data ≤ d_first ∧ d_first + (last - first) ≤ message.data + message.size := by
  simp [copyInside]

/-- The second loop is defined exactly when the bytes it copies fit between
its starting position and the end of the Message. -/
theorem rangeCopyDefined_iff (message : Message) (range : List Buffer) (pos : Nat)
    (hlo : message.data ≤ pos) (hhi : pos ≤ message.data + message.size) :
    rangeCopyDefined message range pos = true ↔
      pos + rangeBytes range ≤ message.data + message.size := by
  induction range generalizing pos with
  | nil => simpa [rangeCopyDefined, rangeBytes] using hhi
  | cons v vs ih =>
    rw [rangeBytes_cons]
    simp only [rangeCopyDefined, to_bytes_fst, to_bytes_snd, Nat.add_sub_cancel_left,
      Bool.and_eq_true, copyInside_iff]
    by_cases h : pos + v.byteLength ≤ message.data + message.size
    · rw [ih (pos + v.byteLength) (by omega) h]
      constructor
      · intro hh
        omega
      · intro hh
        exact ⟨⟨hlo, h⟩, by omega⟩
    · constructor
      · intro hh
        exact absurd hh.1.2 h
      · intro hh
        omega

/-- The single-buffer overload is defined on every input, and its one call of
`outgoing` is on the unchanged channel with a Message of the buffer's byte
length. -/
theorem sendBufferRun_eq {ρ : Type} (outgoing : DataChannel → Memory → Message → ρ)
    (dc : DataChannel) (mem : Memory) (a : Nat) (buf : Buffer) :
    dc.sendBufferRun outgoing mem a buf =
      some (outgoing dc
        (copy_loop buf.byteLength buf.data a (make_shared_Message mem a buf.byteLength).1).1
        ⟨a, buf.byteLength⟩) := by
  unfold DataChannel.sendBufferRun
  have h : copyInside (make_shared_Message mem a (to_bytes buf).2).2 (to_bytes buf).1
      ((to_bytes buf).1 + (to_bytes buf).2) (make_shared_Message mem a (to_bytes buf).2).2.data
      = true := by
    rw [copyInside_iff]
    simp [make_shared_Message_snd]
  simp only [h, if_true, sendBuffer_eq]

/-- The range overload is undefined exactly when its first loop counted
fewer bytes than its second loop copies. -/
theorem sendBufferRangeRun_eq_none_iff {ρ : Type}
    (outgoing : DataChannel → Memory → Message → ρ) (dc : DataChannel) (mem : Memory)
    (a : Nat) (range : List Buffer) :
    dc.sendBufferRangeRun outgoing mem a range = none ↔ rangeSize range < rangeBytes range := by
  unfold DataChannel.sendBufferRangeRun
  have h := rangeCopyDefined_iff ⟨a, rangeSize range⟩ range a (Nat.le_refl _) (Nat.le_add_right _ _)
  simp only [make_shared_Message_snd]
  by_cases hd : rangeCopyDefined ⟨a, rangeSize range⟩ range a = true
  · have h1 := h.mp hd
    simp only [hd, if_true]
    constructor
    · intro hh
      exact absurd hh (by simp)
    · intro hh
      have h2 : a + rangeBytes range ≤ a + rangeSize range := h1
      omega
  · have h1 : ¬ (a + rangeBytes range ≤ a + rangeSize range) := fun hh => hd (h.mpr hh)
    simp only [hd, Bool.false_eq_true, if_false, true_iff]
    omega

/-- Where the range overload is defined, its one call of `outgoing` is on
the unchanged channel with a Message of the size its first loop counted. -/
theorem sendBufferRangeRun_of_inside {ρ : Type}
    (outgoing : DataChannel → Memory → Message → ρ) (dc : DataChannel) (mem : Memory)
    (a : Nat) (range : List Buffer) (hin : rangeBytes range ≤ rangeSize range) :
    dc.sendBufferRangeRun outgoing mem a range =
      some (outgoing dc (rangeCopy range (make_shared_Message mem a (rangeSize range)).1 a).1
        ⟨a, rangeSize range⟩) := by
  have h := (rangeCopyDefined_iff ⟨a, rangeSize range⟩ range a (Nat.le_refl _)
    (Nat.le_add_right _ _)).mpr (by show a + rangeBytes range ≤ a + rangeSize range; omega)
  unfold DataChannel.sendBufferRangeRun
  simp only [make_shared_Message_snd, h, if_true, sendBufferRange_eq]

/-- A bound channel that then processes an open message its decoder accepts
is open: the remotely-initiated channel becomes open in `processOpenMessage`,
not in its constructor. -/
theorem constructBound_processOpenMessage_isOpen (decode : List byte → Option OpenFields)
    (pc : PeerConnection) (transport : SctpTransport) (stream : Nat) (mem : Memory)
    (message : Message) (fields : OpenFields)
    (hdec : decode (message.contents mem) = some fields) :
    ((DataChannel.constructBound pc transport stream).processOpenMessage decode mem
      message).isOpen = true := by
  simp [DataChannel.processOpenMessage, hdec, DataChannel.isOpen]

/-! ## The claims -/

/-- C3: given that the allocator places the new Message outside the region
`buf` views, `sendBuffer(buf)` hands `outgoing` one Message, whatever
`outgoing` is: its size is `buf.size() * sizeof(element)` (one byte per
element behind a `void` pointer), its contents are the bytes of the region
starting at `buf.data()`, the region `buf` views holds the same bytes as
before, and no byte outside the Message was written. -/
theorem sendBuffer_hands_copy_of_buffer (dc : DataChannel) (mem : Memory) (a : Nat)
    (buf : Buffer)
    (hfresh : buf.data + buf.byteLength ≤ a ∨ a + buf.byteLength ≤ buf.data) :
    ∃ (mem' : Memory) (message : Message),
      (∀ (ρ : Type) (outgoing : DataChannel → Memory → Message → ρ),
        dc.sendBuffer outgoing mem a buf = outgoing dc mem' message) ∧
      message.size = buf.size * (buf.pointee.getD byteType).sizeof ∧
      message.contents mem' = mem.read buf.data message.size ∧
      buf.bytes mem' = buf.bytes mem ∧
      (∀ x, x < message.data ∨ message.data + message.size ≤ x → mem' x = mem x) := by
  refine ⟨_, _, fun ρ outgoing => sendBuffer_eq outgoing dc mem a buf, rfl, ?_, ?_, ?_⟩
  · unfold Message.contents
    apply Memory.read_congr
    intro i hi
    change i < buf.byteLength at hi
    change (copy_loop buf.byteLength buf.data a _).1 (a + i) = _
    rw [copy_loop_inside _ _ _ _ _ hfresh hi]
    exact make_shared_Message_outside _ _ _ _ (by omega)
  · unfold Buffer.bytes
    apply Memory.read_congr
    intro i hi
    rw [copy_loop_outside _ _ _ _ _ (by omega)]
    exact make_shared_Message_outside _ _ _ _ (by omega)
  · intro x hx
    change x < a ∨ a + buf.byteLength ≤ x at hx
    rw [copy_loop_outside _ _ _ _ _ hx]
    exact make_shared_Message_outside _ _ _ _ hx

/-- C5: `to_bytes(buf)` is the pair of `buf.data()` and
`buf.size() * sizeof(E)`, `E` being the pointee type of `data()` or one byte
for a `void` pointer; so the length is `buf.size()` behind a `void` pointer
and for one-byte elements, and `k * buf.size()` for `k`-byte elements. -/
theorem to_bytes_pair (buf : Buffer) :
    to_bytes buf =
        (buf.data, buf.size * (match buf.pointee with
          | none => 1
          | some E => E.sizeof)) ∧
      (buf.pointee = none → (to_bytes buf).2 = buf.size) ∧
      (buf.pointee = some byteType → (to_bytes buf).2 = buf.size) ∧
      (∀ k : Nat, buf.pointee = some ⟨k⟩ → (to_bytes buf).2 = k * buf.size) := by
  have h2 := to_bytes_snd buf
  unfold Buffer.byteLength at h2
  refine ⟨?_, ?_, ?_, ?_⟩
  · apply Prod.ext
    · rfl
    · rw [h2]
      cases buf.pointee <;> rfl
  · intro hp
    rw [h2, hp]
    simp [byteType]
  · intro hp
    rw [h2, hp]
    simp [byteType]
  · intro k hp
    rw [h2, hp]
    simp [Nat.mul_comm]

/-- C5 at concrete buffers: four one-byte elements, four bytes behind a
`void` pointer, two `uint16_t` and one `uint32_t`, all at address 16. -/
theorem to_bytes_pair_witness :
    to_bytes fourBytes = (16, 4) ∧ to_bytes fourVoid = (16, 4) ∧
      to_bytes twoUint16 = (16, 4) ∧ to_bytes oneUint32 = (16, 4) :=
  ⟨(to_bytes_pair fourBytes).1, (to_bytes_pair fourVoid).1,
    (to_bytes_pair twoUint16).1, (to_bytes_pair oneUint32).1⟩

/-- C3 at a concrete input: four bytes at address 16, the new Message placed
at address 32. -/
theorem sendBuffer_hands_copy_of_buffer_witness :
    (fourBytes.data + fourBytes.byteLength ≤ 32 ∨ 32 + fourBytes.byteLength ≤ fourBytes.data) ∧
      ∃ (mem' : Memory) (message : Message),
        (∀ (ρ : Type) (outgoing : DataChannel → Memory → Message → ρ),
          openChannel.sendBuffer outgoing sampleMemory 32 fourBytes =
            outgoing openChannel mem' message) ∧
        message.size = fourBytes.size * (fourBytes.pointee.getD byteType).sizeof ∧
        message.contents mem' = sampleMemory.read fourBytes.data message.size ∧
        fourBytes.bytes mem' = fourBytes.bytes sampleMemory ∧
        (∀ x, x < message.data ∨ message.data + message.size ≤ x → mem' x = sampleMemory x) :=
  ⟨by decide, sendBuffer_hands_copy_of_buffer openChannel sampleMemory 32 fourBytes (by decide)⟩

/-- C6: a freshly constructed DataChannel, by either constructor and whatever
its arguments, is not open and not closed, has `recvAmount` 0 and an empty
incoming queue, so its byte counter equals the sum of the sizes of the
queued Messages; the constructor's arguments are the only members it sets. -/
theorem constructed_not_open (pc : PeerConnection) (transport : SctpTransport)
    (stream : Nat) (label protocol : String) (reliability : Reliability) :
    ((DataChannel.construct pc stream label protocol reliability).isOpen = false ∧
      (DataChannel.construct pc stream label protocol reliability).isClosed = false ∧
      (DataChannel.construct pc stream label protocol reliability).availableAmount = 0 ∧
      (DataChannel.construct pc stream label protocol reliability).mRecvQueue.items = [] ∧
      (DataChannel.construct pc stream label protocol reliability).mRecvAmount =
        (DataChannel.construct pc stream label protocol reliability).queuedBytes ∧
      (DataChannel.construct pc stream label protocol reliability).mPeerConnection = pc ∧
      (DataChannel.construct pc stream label protocol reliability).mSctpTransport = none ∧
      (DataChannel.construct pc stream label protocol reliability).mStream = stream ∧
      (DataChannel.construct pc stream label protocol reliability).mLabel = label ∧
      (DataChannel.construct pc stream label protocol reliability).mProtocol = protocol ∧
      (DataChannel.construct pc stream label protocol reliability).mReliability = reliability) ∧
    ((DataChannel.constructBound pc transport stream).isOpen = false ∧
      (DataChannel.constructBound pc transport stream).isClosed = false ∧
      (DataChannel.constructBound pc transport stream).availableAmount = 0 ∧
      (DataChannel.constructBound pc transport stream).mRecvQueue.items = [] ∧
      (DataChannel.constructBound pc transport stream).mRecvAmount =
        (DataChannel.constructBound pc transport stream).queuedBytes ∧
      (DataChannel.constructBound pc transport stream).mPeerConnection = pc ∧
      (DataChannel.constructBound pc transport stream).mSctpTransport = some transport ∧
      (DataChannel.constructBound pc transport stream).mStream = stream) :=
  ⟨⟨rfl, rfl, rfl, rfl, rfl, rfl, rfl, rfl, rfl, rfl, rfl⟩,
    ⟨rfl, rfl, rfl, rfl, rfl, rfl, rfl, rfl⟩⟩

/-- C8, evaluated on a range of two `uint16_t` views (one element each, at
addresses 18 and 16): the first loop counts 2, the second loop copies 4
bytes, so its second `std::copy` stores outside the Message and the call is
undefined before it reaches `outgoing`; the single-buffer overload on the
same view is defined and returns what `outgoing` returns. -/
theorem sendBufferRangeRun_overrun_undefined :
    rangeSize [nextUint16, oneUint16] = 2 ∧
      rangeBytes [nextUint16, oneUint16] = 4 ∧
      copyInside ⟨32, 2⟩ 18 20 32 = true ∧
      copyInside ⟨32, 2⟩ 16 18 34 = false ∧
      openChannel.sendBufferRangeRun DataChannel.outgoing sampleMemory 32
          [nextUint16, oneUint16] = none ∧
      (openChannel.sendBufferRun DataChannel.outgoing sampleMemory 32 nextUint16).isSome =
        true :=
  ⟨rfl, rfl, rfl, rfl, rfl, rfl⟩

/-- C9: on the empty range `sendBuffer(first, last)` still calls `outgoing`,
with a Message of size 0 (no contents) and the memory untouched; and dropping
the views of size 0 from any range changes nothing of what the call does. -/
theorem sendBufferRange_empty_views {ρ : Type}
    (outgoing : DataChannel → Memory → Message → ρ) (dc : DataChannel) (mem : Memory)
    (a : Nat) (range : List Buffer) :
    dc.sendBufferRange outgoing mem a [] = outgoing dc mem ⟨a, 0⟩ ∧
      Message.contents mem ⟨a, 0⟩ = [] ∧
      dc.sendBufferRange outgoing mem a (range.filter (fun v => v.size != 0)) =
        dc.sendBufferRange outgoing mem a range := by
  refine ⟨?_, rfl, ?_⟩
  · unfold DataChannel.sendBufferRange rangeSize rangeCopy
    simp only [List.foldl_nil, make_shared_Message_zero]
  · unfold DataChannel.sendBufferRange rangeSize
    rw [foldl_size_filter range 0 (Nat.zero_le _)]
    simp only [rangeCopy_filter]

/-- C1, evaluated on a range of two `uint16_t` views (one element each, at
addresses 16 and 18): the Message handed to `outgoing` has size 2 and holds
`AA BB`, while the views' bytes in order are `AA BB CC DD`. -/
theorem sendBufferRange_uint16_pair_truncated :
    (openChannel.sendBufferRange handed sampleMemory 32 [oneUint16, nextUint16]).2.2 = ⟨32, 2⟩ ∧
      Message.contents
          (openChannel.sendBufferRange handed sampleMemory 32 [oneUint16, nextUint16]).2.1
          (openChannel.sendBufferRange handed sampleMemory 32 [oneUint16, nextUint16]).2.2 =
        [0xAA, 0xBB] ∧
      oneUint16.bytes sampleMemory ++ nextUint16.bytes sampleMemory = [0xAA, 0xBB, 0xCC, 0xDD] := by
  decide

/-- C2, evaluated on a range holding one `uint16_t` view of one element: the
first loop counts 1, the Message allocated at address 32 has size 1, the
second loop copies the 2 bytes `to_bytes` reports, and the byte at address
33, just past the end of the Message, is overwritten with `BB`. -/
theorem sendBufferRange_uint16_writes_past_end :
    rangeSize [oneUint16] = 1 ∧
      (to_bytes oneUint16).2 = 2 ∧
      (openChannel.sendBufferRange handed sampleMemory 32 [oneUint16]).2.2 = ⟨32, 1⟩ ∧
      sampleMemory 33 = 0 ∧
      (openChannel.sendBufferRange handed sampleMemory 32 [oneUint16]).2.1 33 = 0xBB := by
  decide

/-- C4, evaluated on an open channel whose transport accepts at most 3 bytes
and a range holding one view of two `uint16_t` (4 bytes): the call succeeds,
and the transport has accepted a frame carrying the first 2 of the 4 bytes. -/
theorem sendBufferRange_oversize_forwarded :
    openChannel.maxMessageSize = some 3 ∧
      twoUint16.byteLength = 4 ∧
      openChannel.sendBufferRange DataChannel.outgoing sampleMemory 32 [twoUint16] =
        .ok { openChannel with
          mSctpTransport := some ⟨3, [⟨1, ⟨false, .none⟩, [0xAA, 0xBB]⟩]⟩ } :=
  ⟨rfl, rfl, rfl⟩

/-- C7, evaluated on one `uint32_t` element at address 16: the single-buffer
overload hands `outgoing` a Message of size 4 holding `AA BB CC DD`, the
range overload on the one-element range a Message of size 1 holding `AA`. -/
theorem sendBufferRange_singleton_differs :
    (openChannel.sendBuffer handed sampleMemory 32 oneUint32).2.2 = ⟨32, 4⟩ ∧
      Message.contents (openChannel.sendBuffer handed sampleMemory 32 oneUint32).2.1
          (openChannel.sendBuffer handed sampleMemory 32 oneUint32).2.2 =
        [0xAA, 0xBB, 0xCC, 0xDD] ∧
      (openChannel.sendBufferRange handed sampleMemory 32 [oneUint32]).2.2 = ⟨32, 1⟩ ∧
      Message.contents (openChannel.sendBufferRange handed sampleMemory 32 [oneUint32]).2.1
          (openChannel.sendBufferRange handed sampleMemory 32 [oneUint32]).2.2 =
        [0xAA] := by
  decide

end rtc
